import Mathlib

/-!
Shallow embedding of the Slack notification pipeline's core components:

* `hooks/slack/lib/notification_queue.py` — durable notification queue with
  retry/backoff and dead-lettering (`NotificationQueue`).
* `hooks/slack/lib/rate_limiter.py` — cooldown rate limiting and payload
  deduplication (`RateLimiter`).
* `hooks/slack/lib/sender.py` — dispatcher path (`process_queue`,
  `send_notification`, `_update_notification_sent`, `_update_notification_failed`).

The SQLite `notifications` table is modelled as a `List Notification` in rowid
order; SQL `UPDATE ... WHERE id = ?` becomes a pointwise `List.map` guarded on
the id, `SELECT ... ORDER BY created_at ASC` becomes a stable insertion sort by
`created_at`, and `fetchone` becomes `List.find?`.  Unix timestamps are `Int`
(Python ints).  Network delivery in `send_notification` is modelled by an
oracle `Nat → Option String` giving, per notification id, either success
(`none`) or the error message of whichever failure path fired (`some err`);
every failure path of the Python function funnels into
`_update_notification_failed` identically.
-/

namespace SlackNotif

/-- Status constants of `NotificationStatus` in `notification_queue.py`. -/
inductive NStatus where
  | pending
  | processing
  | sent
  | failed
  | dead_letter
deriving DecidableEq, Repr

/-- One row of the `notifications` table. -/
structure Notification where
  id : Nat
  event_id : Nat
  session_id : String
  notification_type : String
  backend : String
  status : NStatus
  retry_count : Nat
  payload : String
  error : Option String
  created_at : Int
  sent_at : Option Int
  next_retry_at : Option Int
deriving DecidableEq, Repr

instance : Inhabited Notification :=
  ⟨⟨0, 0, "", "", "", .pending, 0, "", none, 0, none, none⟩⟩

/-- `RETRY_DELAYS` from `notification_queue.py`: 1min, 5min, 15min, 1hr, 4hr. -/
def RETRY_DELAYS : List Int := [60, 300, 900, 3600, 14400]

/-- `MAX_RETRIES` from `notification_queue.py`. -/
def MAX_RETRIES : Nat := 5

/-- `SELECT ... WHERE id = ?` + `fetchone`: first row with the given id. -/
def findRow (st : List Notification) (id : Nat) : Option Notification :=
  st.find? fun r => r.id == id

/-- Fresh `AUTOINCREMENT` primary key: strictly larger than every existing id. -/
def nextId (st : List Notification) : Nat :=
  (st.map (·.id)).foldr Nat.max 0 + 1

/-- `NotificationQueue.enqueue`: insert a fresh row with status `pending`,
`retry_count = 0`, `created_at = now`; `event_id` defaults to 0. -/
def enqueue (now : Int) (event_type : String) (payload : String)
    (session_id : String) (backend : String) (event_id : Option Nat)
    (st : List Notification) : Nat × List Notification :=
  let eid := event_id.getD 0
  let nid := nextId st
  (nid, st ++ [{ id := nid, event_id := eid, session_id := session_id,
                 notification_type := event_type, backend := backend,
                 status := .pending, retry_count := 0, payload := payload,
                 error := none, created_at := now, sent_at := none,
                 next_retry_at := none }])

/-- The `WHERE status = 'pending' OR (status = 'failed' AND next_retry_at <= ?)`
filter of `NotificationQueue.dequeue` (a SQL `NULL` never satisfies `<=`). -/
def eligibleB (now : Int) (r : Notification) : Bool :=
  decide (r.status = .pending) ||
    (decide (r.status = .failed) &&
      (match r.next_retry_at with
       | some t => decide (t ≤ now)
       | none => false))

/-- The comparison behind `ORDER BY created_at ASC`. -/
def createdLe (a b : Notification) : Prop :=
  a.created_at ≤ b.created_at

instance : DecidableRel createdLe := fun _ _ => Int.decLe _ _

instance : IsTotal Notification createdLe := ⟨fun _ _ => Int.le_total _ _⟩

instance : IsTrans Notification createdLe := ⟨fun _ _ _ hab hbc => le_trans hab hbc⟩

/-- `ORDER BY created_at ASC` as a stable sort. -/
def sortByCreated (l : List Notification) : List Notification :=
  List.insertionSort createdLe l

/-- `NotificationQueue.dequeue`: select up to `batchSize` eligible rows in
`created_at` order, mark them `processing`, and return them (with the updated
status, as the Python code rebuilds the dicts with status `processing`). -/
def dequeue (now : Int) (batchSize : Int) (st : List Notification) :
    List Notification × List Notification :=
  if batchSize ≤ 0 then ([], st)
  else
    let rows := (sortByCreated (st.filter (eligibleB now))).take batchSize.toNat
    if rows.isEmpty then ([], st)
    else
      let ids := rows.map (·.id)
      (rows.map fun r => { r with status := .processing },
       st.map fun r => if ids.contains r.id then { r with status := .processing } else r)

/-- `NotificationQueue.mark_sent`: unconditional
`UPDATE ... SET status='sent', sent_at=now WHERE id = ?` (no status guard). -/
def markSent (now : Int) (id : Nat) (st : List Notification) : List Notification :=
  st.map fun r => if r.id == id then { r with status := .sent, sent_at := some now } else r

/-- `NotificationQueue.mark_failed`: read the row's `retry_count`, increment it;
above `MAX_RETRIES` move to `dead_letter`, otherwise schedule a retry at
`now + RETRY_DELAYS[min(new_retry_count - 1, len(RETRY_DELAYS) - 1)]`. -/
def markFailed (now : Int) (id : Nat) (err : String) (st : List Notification) :
    List Notification :=
  match findRow st id with
  | none => st
  | some row =>
    let newCount := row.retry_count + 1
    if newCount > MAX_RETRIES then
      st.map fun r =>
        if r.id == id then
          { r with status := .dead_letter, retry_count := newCount, error := some err }
        else r
    else
      let delay := RETRY_DELAYS.getD (min (newCount - 1) (RETRY_DELAYS.length - 1)) 0
      st.map fun r =>
        if r.id == id then
          { r with status := .failed, retry_count := newCount, error := some err,
                   next_retry_at := some (now + delay) }
        else r

/-- The deletion predicate of `NotificationQueue.cleanup_old`:
status in {sent, dead_letter} and `created_at < now - days*24*60*60`. -/
def cleanupPred (now : Int) (days : Int) (r : Notification) : Bool :=
  (decide (r.status = .sent) || decide (r.status = .dead_letter)) &&
    decide (r.created_at < now - days * 24 * 60 * 60)

/-- `NotificationQueue.cleanup_old`: delete matching rows, return their count. -/
def cleanupOld (now : Int) (days : Int) (st : List Notification) :
    Nat × List Notification :=
  (st.countP (cleanupPred now days), st.filter fun r => !cleanupPred now days r)

/-! ### Dispatcher (`sender.py`) -/

/-- `_update_notification_sent` in `sender.py`: unconditional update to `sent`. -/
def senderMarkSent (now : Int) (id : Nat) (st : List Notification) : List Notification :=
  st.map fun r => if r.id == id then { r with status := .sent, sent_at := some now } else r

/-- `_update_notification_failed` in `sender.py`: set status `failed` and
`retry_count = current_retry_count + 1` (the count read when the notification
was loaded); no backoff scheduling at this layer. -/
def senderMarkFailed (id : Nat) (currentRetryCount : Nat) (err : String)
    (st : List Notification) : List Notification :=
  st.map fun r =>
    if r.id == id then
      { r with status := .failed, retry_count := currentRetryCount + 1, error := some err }
    else r

/-- `send_notification` in `sender.py`.  `none` models the raised
`NotificationError` when the id is not found.  The delivery `oracle` decides,
per id, whether the attempt succeeds (`none`) or which error message the
failing path produces (`some err`); every failure path (bad JSON payload,
missing webhook config, invalid URL, non-200 response, timeout, request
exception) updates the row through `_update_notification_failed` and returns
`False`, and the success path updates through `_update_notification_sent` and
returns `True`. -/
def sendNotification (now : Int) (oracle : Nat → Option String)
    (st : List Notification) (id : Nat) : Option (Bool × List Notification) :=
  match findRow st id with
  | none => none
  | some notif =>
    match oracle id with
    | none => some (true, senderMarkSent now id st)
    | some err => some (false, senderMarkFailed id notif.retry_count err st)

/-- SQLite `LIMIT ?`: a negative limit means "no limit". -/
def sqlLimit (n : Int) (l : List Notification) : List Notification :=
  if n < 0 then l else l.take n.toNat

/-- The candidate selection of `process_queue` in `sender.py`:
`status = 'pending' OR (status = 'failed' AND retry_count < max_retries)`,
`ORDER BY created_at ASC LIMIT batch_size`; only the ids are fetched. -/
def pqSelect (maxRetries : Int) (batchSize : Int) (st : List Notification) : List Nat :=
  (sqlLimit batchSize (sortByCreated (st.filter fun r =>
      decide (r.status = .pending) ||
        (decide (r.status = .failed) && decide ((r.retry_count : Int) < maxRetries))))).map (·.id)

/-- The `for notif in notifications` loop of `process_queue`: call
`send_notification` on each selected id in order, counting every call that
completes without raising (a raised `NotificationError` is caught and
skipped). -/
def processQueueGo (now : Int) (oracle : Nat → Option String) :
    List Nat → Nat → List Notification → Nat × List Notification
  | [], k, cur => (k, cur)
  | id :: rest, k, cur =>
    match sendNotification now oracle cur id with
    | none => processQueueGo now oracle rest k cur
    | some (_, st') => processQueueGo now oracle rest (k + 1) st'

/-- `process_queue` in `sender.py`: select candidates, run the send loop,
return the processed count and the final table state. -/
def processQueue (now : Int) (oracle : Nat → Option String)
    (st : List Notification) (batchSize : Int) (maxRetries : Int) :
    Nat × List Notification :=
  processQueueGo now oracle (pqSelect maxRetries batchSize st) 0 st

/-! ### Rate limiter (`rate_limiter.py`)

The payload dict is modelled by the three fields `_hash_payload` reads plus an
opaque `other` component standing for every field the hash ignores.  The
16-hex-character truncated SHA-256 of the sorted-JSON encoding of the
None-stripped relevant dict is modelled collision-freely as the triple of
optional relevant fields itself (stripping a `None`-valued key and never
having had it are the same triple, exactly as in the JSON encoding). -/

/-- A notification payload as seen by the rate limiter. -/
structure Payload where
  tool_name : Option String
  tool_input : Option String
  notification_type : Option String
  other : String
deriving DecidableEq, Repr

/-- The dedup key produced by `RateLimiter._hash_payload`. -/
structure PayloadHash where
  tool_name : Option String
  tool_input : Option String
  notification_type : Option String
deriving DecidableEq, Repr

/-- `RateLimiter._hash_payload`: hash only tool_name, tool_input and
notification_type; `other` fields never influence the hash. -/
def hashPayload (p : Payload) : PayloadHash :=
  ⟨p.tool_name, p.tool_input, p.notification_type⟩

/-- `RateLimitConfig` (cooldowns as an association list, like the dict). -/
structure RateLimitConfig where
  enabled : Bool
  cooldowns : List (String × Int)
  dedup_enabled : Bool
  dedup_window_seconds : Int
deriving Repr

/-- The type-name normalization map inside `RateLimitConfig.get_cooldown`. -/
def normalizeType (t : String) : String :=
  if t == "permission_prompt" then "permission"
  else if t == "idle_prompt" then "idle"
  else if t == "task_complete" then "complete"
  else if t == "stop" then "complete"
  else t

/-- `RateLimitConfig.get_cooldown`: normalize, then look up with default 0. -/
def getCooldown (cfg : RateLimitConfig) (t : String) : Int :=
  ((cfg.cooldowns.lookup (normalizeType t)).getD 0)

/-- One row of the `rate_limit_state` table (unique per (session, type)). -/
structure RLState where
  session_id : String
  notification_type : String
  last_sent_at : Int
  suppressed_count : Nat
  last_payload_hash : Option PayloadHash
  created_at : Int
  updated_at : Int
deriving DecidableEq, Repr

/-- One row of the `dedup_history` table (unique per (session, type, hash)). -/
structure DedupEntry where
  session_id : String
  notification_type : String
  payload_hash : PayloadHash
  sent_at : Int
deriving DecidableEq, Repr

/-- The rate limiter's database: both tables, in rowid order. -/
structure LimiterDB where
  states : List RLState
  dedup : List DedupEntry
deriving Repr

/-- `SELECT ... FROM rate_limit_state WHERE session_id = ? AND
notification_type = ?` + `fetchone`. -/
def findState (db : LimiterDB) (sid nt : String) : Option RLState :=
  db.states.find? fun r => r.session_id == sid && r.notification_type == nt

/-- The result record returned by `RateLimiter.should_send`. -/
structure RateLimitResult where
  allowed : Bool
  reason : String
  suppressed_count : Nat
  last_sent_at : Option Int
  cooldown_remaining : Int
deriving DecidableEq, Repr

/-- `RateLimiter._is_duplicate`: an entry for the same (session, type, hash)
with `sent_at > now - dedup_window_seconds` (strict comparison). -/
def isDuplicate (db : LimiterDB) (window : Int) (now : Int) (sid nt : String)
    (h : PayloadHash) : Bool :=
  db.dedup.any fun e =>
    e.session_id == sid && e.notification_type == nt &&
      decide (e.payload_hash = h) && decide (now - window < e.sent_at)

/-- `RateLimiter._increment_suppressed`: atomic
`UPDATE ... SET suppressed_count = suppressed_count + 1, updated_at = now`. -/
def incrementSuppressed (now : Int) (sid nt : String) (db : LimiterDB) : LimiterDB :=
  { db with states := db.states.map fun r =>
      if r.session_id == sid && r.notification_type == nt then
        { r with suppressed_count := r.suppressed_count + 1, updated_at := now }
      else r }

/-- `RateLimiter.should_send`.  A Python-falsy payload (`None` or an empty
dict) is modelled as `none`. -/
def shouldSend (cfg : RateLimitConfig) (now : Int) (sid nt : String)
    (payload : Option Payload) (db : LimiterDB) : RateLimitResult × LimiterDB :=
  if !cfg.enabled then (⟨true, "rate_limiting_disabled", 0, none, 0⟩, db)
  else
    let cooldown := getCooldown cfg nt
    if cooldown = 0 then (⟨true, "no_cooldown", 0, none, 0⟩, db)
    else
      match findState db sid nt with
      | none => (⟨true, "first_notification", 0, none, 0⟩, db)
      | some row =>
        let elapsed := now - row.last_sent_at
        if elapsed < cooldown then
          (⟨false, "cooldown_active", row.suppressed_count + 1,
            some row.last_sent_at, cooldown - elapsed⟩,
           incrementSuppressed now sid nt db)
        else
          let dup :=
            match payload with
            | some p =>
              cfg.dedup_enabled &&
                isDuplicate db cfg.dedup_window_seconds now sid nt (hashPayload p)
            | none => false
          if dup then
            (⟨false, "duplicate_suppressed", row.suppressed_count + 1,
              some row.last_sent_at, 0⟩,
             incrementSuppressed now sid nt db)
          else
            (⟨true, "cooldown_expired", row.suppressed_count,
              some row.last_sent_at, 0⟩, db)

/-- The `INSERT ... ON CONFLICT(session_id, notification_type) DO UPDATE` of
`record_sent`: update the matching row in place, or append a fresh one. -/
def upsertState (now : Int) (sid nt : String) (h : Option PayloadHash)
    (states : List RLState) : List RLState :=
  if states.any (fun r => r.session_id == sid && r.notification_type == nt) then
    states.map fun r =>
      if r.session_id == sid && r.notification_type == nt then
        { r with last_sent_at := now, suppressed_count := 0,
                 last_payload_hash := h, updated_at := now }
      else r
  else
    states ++ [{ session_id := sid, notification_type := nt, last_sent_at := now,
                 suppressed_count := 0, last_payload_hash := h,
                 created_at := now, updated_at := now }]

/-- The `INSERT OR REPLACE INTO dedup_history` of `record_sent`: `REPLACE`
deletes the conflicting (session, type, hash) row and inserts the new one. -/
def upsertDedup (now : Int) (sid nt : String) (h : PayloadHash)
    (dedup : List DedupEntry) : List DedupEntry :=
  (dedup.filter fun e =>
      !(e.session_id == sid && e.notification_type == nt && decide (e.payload_hash = h)))
    ++ [{ session_id := sid, notification_type := nt, payload_hash := h, sent_at := now }]

/-- `RateLimiter.record_sent`: read the pre-reset suppressed count (0 when no
row), upsert the state row with `last_sent_at = now`, `suppressed_count = 0`,
record the dedup entry when a payload is given, and return the pre-reset
count. -/
def recordSent (now : Int) (sid nt : String) (payload : Option Payload)
    (db : LimiterDB) : Nat × LimiterDB :=
  let pre := ((findState db sid nt).map (·.suppressed_count)).getD 0
  let h := payload.map hashPayload
  let states' := upsertState now sid nt h db.states
  let dedup' :=
    match h with
    | some hh => upsertDedup now sid nt hh db.dedup
    | none => db.dedup
  (pre, ⟨states', dedup'⟩)

/-- `SELECT 1 FROM dedup_history WHERE ...` + `fetchone`, keyed by
(session, type, hash). -/
def findDedup (db : LimiterDB) (sid nt : String) (h : PayloadHash) :
    Option DedupEntry :=
  db.dedup.find? fun e =>
    e.session_id == sid && e.notification_type == nt && decide (e.payload_hash = h)

/-! ### Concrete fixtures used by witnesses and counterexamples -/

/-- A freshly enqueued pending row. -/
def wRow : Notification :=
  { id := 1, event_id := 0, session_id := "s1", notification_type := "permission",
    backend := "slack", status := .pending, retry_count := 0, payload := "{}",
    error := none, created_at := 10, sent_at := none, next_retry_at := none }

/-- A dead-lettered row as the queue produces it (`retry_count = 6`). -/
def wDeadRow : Notification :=
  { id := 7, event_id := 0, session_id := "s1", notification_type := "idle",
    backend := "slack", status := .dead_letter, retry_count := 6, payload := "{}",
    error := some "boom", created_at := 3, sent_at := none, next_retry_at := some 99 }

/-- A failed row whose retry is due at time 90. -/
def wFailedRow : Notification :=
  { id := 2, event_id := 0, session_id := "s1", notification_type := "idle",
    backend := "slack", status := .failed, retry_count := 2, payload := "{}",
    error := some "x", created_at := 5, sent_at := none, next_retry_at := some 90 }

/-- Rate-limit configuration with a 30 s cooldown on `permission`. -/
def wCfg : RateLimitConfig :=
  { enabled := true, cooldowns := [("permission", 30)],
    dedup_enabled := true, dedup_window_seconds := 300 }

/-- Rate-limit configuration whose `complete` type has cooldown 0. -/
def wCfgZero : RateLimitConfig :=
  { enabled := true, cooldowns := [("complete", 0)],
    dedup_enabled := true, dedup_window_seconds := 300 }

/-- A payload for dedup checks. -/
def wPayload : Payload :=
  { tool_name := some "Edit", tool_input := some "a.txt", notification_type := none,
    other := "noise" }

/-- Rate-limiter state with one (s1, permission) row last sent at 0. -/
def wState : RLState :=
  { session_id := "s1", notification_type := "permission", last_sent_at := 0,
    suppressed_count := 0, last_payload_hash := none, created_at := 0, updated_at := 0 }

/-- A limiter database whose dedup entry sits exactly on the window boundary
for `now = 1000` and a 300 s window: `sent_at = 700 = now - window`. -/
def wBoundaryDB : LimiterDB :=
  { states := [wState],
    dedup := [{ session_id := "s1", notification_type := "permission",
                payload_hash := hashPayload wPayload, sent_at := 700 }] }

/-- The status-transition relation asserted by the specification: changes only
along pending→processing, processing→sent, processing→failed,
failed→processing, failed→dead_letter.  (Stated from the spec's words, to be
compared against what the code does.) -/
def specAllowedStep (a b : NStatus) : Prop :=
  (a = .pending ∧ b = .processing) ∨ (a = .processing ∧ b = .sent) ∨
    (a = .processing ∧ b = .failed) ∨ (a = .failed ∧ b = .processing) ∨
    (a = .failed ∧ b = .dead_letter)

end SlackNotif

/-! ## Helper lemmas -/

namespace SlackNotif

theorem find?_map_ite {α : Type _} (p : α → Bool) (f : α → α)
    (hf : ∀ a, p (f a) = p a) :
    ∀ (l : List α) (a : α), l.find? p = some a →
      (l.map fun x => if p x then f x else x).find? p = some (f a) := by
  intro l
  induction l with
  | nil => intro a h; simp at h
  | cons b l ih =>
    intro a h
    by_cases hb : p b = true
    · rw [List.find?_cons_of_pos _ hb] at h
      cases h
      have hfb : p (f b) = true := by rw [hf b]; exact hb
      simp only [List.map_cons, if_pos hb]
      exact List.find?_cons_of_pos _ hfb
    · rw [List.find?_cons_of_neg _ hb] at h
      simp only [List.map_cons, if_neg hb]
      rw [List.find?_cons_of_neg _ hb]
      exact ih a h

theorem find?_append_left_none {α : Type _} (p : α → Bool) :
    ∀ (l1 l2 : List α), (∀ a ∈ l1, p a = false) →
      (l1 ++ l2).find? p = l2.find? p := by
  intro l1
  induction l1 with
  | nil => intro l2 _; rfl
  | cons b l ih =>
    intro l2 h
    have hb : ¬p b = true := by simp [h b (List.mem_cons_self b l)]
    rw [List.cons_append, List.find?_cons_of_neg _ hb]
    exact ih l2 fun a ha => h a (List.mem_cons_of_mem _ ha)

theorem le_foldr_max : ∀ (l : List Nat), ∀ x ∈ l, x ≤ l.foldr Nat.max 0 := by
  intro l
  induction l with
  | nil => intro x hx; cases hx
  | cons b l ih =>
    intro x hx
    simp only [List.foldr_cons]
    rcases List.mem_cons.mp hx with h | h
    · subst h; exact Nat.le_max_left _ _
    · exact le_trans (ih x h) (Nat.le_max_right _ _)

theorem nextId_not_mem (st : List Notification) : ∀ r ∈ st, r.id ≠ nextId st := by
  intro r hr
  have hle : r.id ≤ (st.map (·.id)).foldr Nat.max 0 :=
    le_foldr_max _ _ (List.mem_map_of_mem _ hr)
  unfold nextId
  omega

theorem findRow_map_ite (id : Nat) (f : Notification → Notification)
    (hf : ∀ r, (f r).id = r.id) (st : List Notification) (row : Notification)
    (h : findRow st id = some row) :
    findRow (st.map fun r => if r.id == id then f r else r) id = some (f row) := by
  unfold findRow at h ⊢
  exact find?_map_ite (fun r => r.id == id) f (fun a => by simp only []; rw [hf a]) st row h

theorem findRow_append_fresh (st : List Notification) (n : Notification)
    (hn : ∀ r ∈ st, r.id ≠ n.id) : findRow (st ++ [n]) n.id = some n := by
  unfold findRow
  rw [find?_append_left_none]
  · simp
  · intro a ha
    simp only [beq_eq_false_iff_ne, ne_eq]
    exact hn a ha

/-- What one `mark_failed` call does to the row it finds. -/
theorem markFailed_step (st : List Notification) (now : Int) (id : Nat)
    (err : String) (row : Notification) (h : findRow st id = some row) :
    ∃ row', findRow (markFailed now id err st) id = some row' ∧
      row'.retry_count = row.retry_count + 1 ∧
      row'.id = row.id ∧
      (row.retry_count + 1 ≤ MAX_RETRIES →
        row'.status = .failed ∧
        row'.next_retry_at =
          some (now + RETRY_DELAYS.getD (min row.retry_count 4) 0)) ∧
      (MAX_RETRIES < row.retry_count + 1 → row'.status = .dead_letter) := by
  by_cases hc : row.retry_count + 1 > MAX_RETRIES
  · have hst : markFailed now id err st =
        st.map fun r =>
          if r.id == id then
            { r with status := .dead_letter, retry_count := row.retry_count + 1,
                     error := some err }
          else r := by
      unfold markFailed
      rw [h]
      simp only [if_pos hc]
    have hfind : findRow (markFailed now id err st) id =
        some { row with status := .dead_letter, retry_count := row.retry_count + 1,
                        error := some err } := by
      rw [hst]
      exact findRow_map_ite id
        (fun r => { r with status := .dead_letter, retry_count := row.retry_count + 1,
                           error := some err })
        (fun r => rfl) st row h
    exact ⟨_, hfind, rfl, rfl, fun hle => absurd hle (by omega), fun _ => rfl⟩
  · have hc' : ¬row.retry_count + 1 > MAX_RETRIES := hc
    have hst : markFailed now id err st =
        st.map fun r =>
          if r.id == id then
            { r with status := .failed, retry_count := row.retry_count + 1,
                     error := some err,
                     next_retry_at :=
                       some (now + RETRY_DELAYS.getD (min row.retry_count 4) 0) }
          else r := by
      unfold markFailed
      rw [h]
      simp only [if_neg hc']
      rfl
    have hfind : findRow (markFailed now id err st) id =
        some { row with status := .failed, retry_count := row.retry_count + 1,
                        error := some err,
                        next_retry_at :=
                          some (now + RETRY_DELAYS.getD (min row.retry_count 4) 0) } := by
      rw [hst]
      exact findRow_map_ite id
        (fun r => { r with status := .failed, retry_count := row.retry_count + 1,
                           error := some err,
                           next_retry_at :=
                             some (now + RETRY_DELAYS.getD (min row.retry_count 4) 0) })
        (fun r => rfl) st row h
    exact ⟨_, hfind, rfl, rfl, fun _ => ⟨rfl, rfl⟩, fun hgt => absurd hgt hc⟩

end SlackNotif

namespace SlackNotif

theorem findState_map_ite (sid nt : String) (f : RLState → RLState)
    (hf : ∀ r, (f r).session_id = r.session_id ∧
      (f r).notification_type = r.notification_type)
    (states : List RLState) (row : RLState)
    (h : states.find? (fun r => r.session_id == sid && r.notification_type == nt)
          = some row) :
    (states.map fun r =>
        if r.session_id == sid && r.notification_type == nt then f r else r).find?
      (fun r => r.session_id == sid && r.notification_type == nt) = some (f row) :=
  find?_map_ite _ f
    (fun a => by simp only [(hf a).1, (hf a).2]) states row h

/-- C1: each `mark_failed(id, error)` on an id present in the queue increments
`retry_count` by exactly 1; when the new count n is at most `MAX_RETRIES` = 5
the row ends `failed` with `next_retry_at = now + d`, `d` the backoff-table
entry at index `min (n-1) 4`, i.e. 60, 300, 900, 3600, 14400 seconds for
attempts 1..5; when n > 5 the row ends `dead_letter`; and six sequential
`mark_failed` calls on one freshly enqueued notification end with status
`dead_letter` and `retry_count ≥ MAX_RETRIES`. -/
theorem C1_markFailed_backoff_deadletter :
    (∀ (st : List Notification) (now : Int) (id : Nat) (err : String)
       (row : Notification), findRow st id = some row →
      ∃ row', findRow (markFailed now id err st) id = some row' ∧
        row'.retry_count = row.retry_count + 1 ∧
        (row.retry_count + 1 ≤ MAX_RETRIES →
          row'.status = .failed ∧
          row'.next_retry_at =
            some (now + RETRY_DELAYS.getD (min row.retry_count 4) 0)) ∧
        (MAX_RETRIES < row.retry_count + 1 → row'.status = .dead_letter) ∧
        (row.retry_count = 0 → row'.next_retry_at = some (now + 60)) ∧
        (row.retry_count = 1 → row'.next_retry_at = some (now + 300)) ∧
        (row.retry_count = 2 → row'.next_retry_at = some (now + 900)) ∧
        (row.retry_count = 3 → row'.next_retry_at = some (now + 3600)) ∧
        (row.retry_count = 4 → row'.next_retry_at = some (now + 14400))) ∧
    (∀ (st0 : List Notification) (t0 : Int) (et p sid be : String)
       (eid : Option Nat) (t1 t2 t3 t4 t5 t6 : Int) (e1 e2 e3 e4 e5 e6 : String),
      ∃ r, findRow
          (markFailed t6 (enqueue t0 et p sid be eid st0).1 e6
            (markFailed t5 (enqueue t0 et p sid be eid st0).1 e5
              (markFailed t4 (enqueue t0 et p sid be eid st0).1 e4
                (markFailed t3 (enqueue t0 et p sid be eid st0).1 e3
                  (markFailed t2 (enqueue t0 et p sid be eid st0).1 e2
                    (markFailed t1 (enqueue t0 et p sid be eid st0).1 e1
                      (enqueue t0 et p sid be eid st0).2))))))
          (enqueue t0 et p sid be eid st0).1 = some r ∧
        r.status = .dead_letter ∧ MAX_RETRIES ≤ r.retry_count) := by
  constructor
  · intro st now id err row h
    obtain ⟨row', hf, hrc, _, hle, hgt⟩ := markFailed_step st now id err row h
    refine ⟨row', hf, hrc, hle, hgt, ?_, ?_, ?_, ?_, ?_⟩ <;>
      intro h0 <;> (have h' := (hle (by rw [h0]; decide)).2; rw [h0] at h'; exact h')
  · intro st0 t0 et p sid be eid t1 t2 t3 t4 t5 t6 e1 e2 e3 e4 e5 e6
    have h0' : findRow (enqueue t0 et p sid be eid st0).2
        (enqueue t0 et p sid be eid st0).1 =
        some ⟨nextId st0, eid.getD 0, sid, et, be, .pending, 0, p, none, t0, none, none⟩ :=
      findRow_append_fresh st0
        ⟨nextId st0, eid.getD 0, sid, et, be, .pending, 0, p, none, t0, none, none⟩
        (fun r hr => nextId_not_mem st0 r hr)
    obtain ⟨r1, hf1, hrc1, _, _, _⟩ := markFailed_step _ t1 _ e1 _ h0'
    obtain ⟨r2, hf2, hrc2, _, _, _⟩ := markFailed_step _ t2 _ e2 _ hf1
    obtain ⟨r3, hf3, hrc3, _, _, _⟩ := markFailed_step _ t3 _ e3 _ hf2
    obtain ⟨r4, hf4, hrc4, _, _, _⟩ := markFailed_step _ t4 _ e4 _ hf3
    obtain ⟨r5, hf5, hrc5, _, _, _⟩ := markFailed_step _ t5 _ e5 _ hf4
    obtain ⟨r6, hf6, hrc6, _, _, hgt6⟩ := markFailed_step _ t6 _ e6 _ hf5
    have a1 : r1.retry_count = 1 := hrc1
    have a2 : r2.retry_count = 2 := by rw [hrc2, a1]
    have a3 : r3.retry_count = 3 := by rw [hrc3, a2]
    have a4 : r4.retry_count = 4 := by rw [hrc4, a3]
    have a5 : r5.retry_count = 5 := by rw [hrc5, a4]
    refine ⟨r6, hf6, hgt6 (by rw [a5]; decide), by rw [hrc6, a5]; decide⟩

/-- Witness for C1 on a concrete one-row queue. -/
theorem C1_markFailed_backoff_deadletter_witness :
    ∃ row', findRow (markFailed 50 1 "boom" [wRow]) 1 = some row' ∧
      row'.retry_count = wRow.retry_count + 1 ∧
      (wRow.retry_count + 1 ≤ MAX_RETRIES →
        row'.status = .failed ∧
        row'.next_retry_at = some (50 + RETRY_DELAYS.getD (min wRow.retry_count 4) 0)) ∧
      (MAX_RETRIES < wRow.retry_count + 1 → row'.status = .dead_letter) ∧
      (wRow.retry_count = 0 → row'.next_retry_at = some (50 + 60)) ∧
      (wRow.retry_count = 1 → row'.next_retry_at = some (50 + 300)) ∧
      (wRow.retry_count = 2 → row'.next_retry_at = some (50 + 900)) ∧
      (wRow.retry_count = 3 → row'.next_retry_at = some (50 + 3600)) ∧
      (wRow.retry_count = 4 → row'.next_retry_at = some (50 + 14400)) :=
  C1_markFailed_backoff_deadletter.1 [wRow] 50 1 "boom" wRow rfl

/-- C9: `cleanup_old(days)` deletes exactly the sent/dead_letter rows older
than `now - days*24*60*60`, returns their count, and leaves every
pending/processing/failed row in place regardless of age. -/
theorem C9_cleanup_old_deletes_only_terminal :
    ∀ (now days : Int) (st : List Notification),
      ((cleanupOld now days st).1 = st.countP (cleanupPred now days)) ∧
      (∀ r : Notification, ((cleanupOld now days st).2).count r =
        if cleanupPred now days r then 0 else st.count r) ∧
      (∀ r ∈ (cleanupOld now days st).2, cleanupPred now days r = false) ∧
      (∀ r ∈ st,
        r.status = .pending ∨ r.status = .processing ∨ r.status = .failed →
        r ∈ (cleanupOld now days st).2) ∧
      ((cleanupOld now days st).1 + ((cleanupOld now days st).2).length = st.length) := by
  intro now days st
  refine ⟨rfl, ?_, ?_, ?_, ?_⟩
  · intro r
    by_cases hp : cleanupPred now days r = true
    · rw [if_pos hp]
      apply List.count_eq_zero.mpr
      intro hmem
      have h2 := (List.mem_filter.mp hmem).2
      rw [hp] at h2
      simp at h2
    · have hf : cleanupPred now days r = false := by simpa using hp
      rw [if_neg hp]
      exact List.count_filter (by rw [hf]; rfl)
  · intro r hm
    have h2 := (List.mem_filter.mp hm).2
    simpa using h2
  · intro r hr hstat
    have hf : cleanupPred now days r = false := by
      rcases hstat with h | h | h <;> simp [cleanupPred, h]
    exact List.mem_filter.mpr ⟨hr, by rw [hf]; rfl⟩
  · have h1 := List.length_eq_countP_add_countP (cleanupPred now days) st
    have h2 : ((cleanupOld now days st).2).length =
        st.countP (fun a => decide ¬cleanupPred now days a = true) := by
      show (st.filter fun r => !cleanupPred now days r).length = _
      rw [← List.countP_eq_length_filter]
      congr 1
      funext a
      cases h : cleanupPred now days a <;> simp [h]
    show st.countP (cleanupPred now days) + _ = st.length
    rw [h2]
    omega

/-- Witness for C9 on a concrete two-row queue: the old dead-lettered row is
deleted and counted, the pending row survives. -/
theorem C9_cleanup_old_witness :
    (cleanupOld 100 0 [wRow, wDeadRow]).1 +
      ((cleanupOld 100 0 [wRow, wDeadRow]).2).length = 2 ∧
    wRow ∈ (cleanupOld 100 0 [wRow, wDeadRow]).2 := by
  have h := C9_cleanup_old_deletes_only_terminal 100 0 [wRow, wDeadRow]
  exact ⟨h.2.2.2.2, h.2.2.2.1 wRow (List.mem_cons_self _ _) (Or.inl rfl)⟩

end SlackNotif

namespace SlackNotif

/-- C5: with rate limiting enabled, a positive resolved cooldown, an existing
state row and elapsed = now - last_sent_at < cooldown, `should_send` rejects
with reason "cooldown_active", returns the post-increment suppressed count and
`cooldown_remaining = cooldown - elapsed`, and persists the increment of
`suppressed_count` by exactly 1. -/
theorem C5_should_send_cooldown_active :
    ∀ (cfg : RateLimitConfig) (now : Int) (sid nt : String)
      (payload : Option Payload) (db : LimiterDB) (row : RLState),
      cfg.enabled = true →
      0 < getCooldown cfg nt →
      findState db sid nt = some row →
      now - row.last_sent_at < getCooldown cfg nt →
      (shouldSend cfg now sid nt payload db).1 =
        ⟨false, "cooldown_active", row.suppressed_count + 1, some row.last_sent_at,
          getCooldown cfg nt - (now - row.last_sent_at)⟩ ∧
      findState (shouldSend cfg now sid nt payload db).2 sid nt =
        some { row with suppressed_count := row.suppressed_count + 1,
                        updated_at := now } := by
  intro cfg now sid nt payload db row hen hpos hfind hlt
  have hne : ¬getCooldown cfg nt = 0 := by omega
  have hres : shouldSend cfg now sid nt payload db =
      (⟨false, "cooldown_active", row.suppressed_count + 1, some row.last_sent_at,
        getCooldown cfg nt - (now - row.last_sent_at)⟩,
       incrementSuppressed now sid nt db) := by
    unfold shouldSend
    rw [hen, hfind]
    simp only [Bool.not_true, Bool.false_eq_true, if_false, if_neg hne, if_pos hlt]
  refine ⟨by rw [hres], ?_⟩
  rw [hres]
  show (incrementSuppressed now sid nt db).states.find? _ = _
  exact findState_map_ite sid nt
    (fun r => { r with suppressed_count := r.suppressed_count + 1, updated_at := now })
    (fun r => ⟨rfl, rfl⟩) db.states row hfind

/-- Witness for C5: second call 10 s after a send with a 30 s cooldown. -/
theorem C5_should_send_cooldown_active_witness :
    (shouldSend wCfg 10 "s1" "permission" none ⟨[wState], []⟩).1 =
      ⟨false, "cooldown_active", wState.suppressed_count + 1, some wState.last_sent_at,
        getCooldown wCfg "permission" - (10 - wState.last_sent_at)⟩ ∧
    findState (shouldSend wCfg 10 "s1" "permission" none ⟨[wState], []⟩).2
        "s1" "permission" =
      some { wState with suppressed_count := wState.suppressed_count + 1,
                         updated_at := 10 } :=
  C5_should_send_cooldown_active wCfg 10 "s1" "permission" none ⟨[wState], []⟩ wState
    rfl (by decide) rfl (by decide)

/-- C7: `record_sent` returns the pre-reset suppressed count (0 when no row
existed), leaves the pair's state row with `last_sent_at = now` and
`suppressed_count = 0` (creating it if absent), and upserts the payload's
dedup entry with `sent_at = now` when a payload is given. -/
theorem C7_record_sent_resets :
    ∀ (now : Int) (sid nt : String) (payload : Option Payload) (db : LimiterDB),
      (∀ row, findState db sid nt = some row →
        (recordSent now sid nt payload db).1 = row.suppressed_count) ∧
      (findState db sid nt = none → (recordSent now sid nt payload db).1 = 0) ∧
      (∃ row', findState (recordSent now sid nt payload db).2 sid nt = some row' ∧
        row'.last_sent_at = now ∧ row'.suppressed_count = 0 ∧
        row'.last_payload_hash = payload.map hashPayload ∧ row'.updated_at = now) ∧
      (∀ p, payload = some p →
        ∃ e, findDedup (recordSent now sid nt payload db).2 sid nt (hashPayload p) =
            some e ∧ e.sent_at = now) ∧
      (payload = none → (recordSent now sid nt payload db).2.dedup = db.dedup) := by
  intro now sid nt payload db
  refine ⟨?_, ?_, ?_, ?_, ?_⟩
  · intro row h
    show ((findState db sid nt).map (·.suppressed_count)).getD 0 = _
    rw [h]
    rfl
  · intro h
    show ((findState db sid nt).map (·.suppressed_count)).getD 0 = 0
    rw [h]
    rfl
  · show ∃ row', (upsertState now sid nt (payload.map hashPayload) db.states).find? _ =
        some row' ∧ _
    by_cases hex : db.states.any
        (fun r => r.session_id == sid && r.notification_type == nt) = true
    · obtain ⟨x, hx, hpx⟩ := List.any_eq_true.mp hex
      have hfind : ∃ row, findState db sid nt = some row := by
        cases hcase : findState db sid nt with
        | none =>
          exact absurd hpx (List.find?_eq_none.mp hcase x hx)
        | some row => exact ⟨row, rfl⟩
      obtain ⟨row, hrow⟩ := hfind
      have hst : upsertState now sid nt (payload.map hashPayload) db.states =
          db.states.map fun r =>
            if r.session_id == sid && r.notification_type == nt then
              { r with last_sent_at := now, suppressed_count := 0,
                       last_payload_hash := payload.map hashPayload,
                       updated_at := now }
            else r := by
        unfold upsertState
        rw [if_pos hex]
      rw [hst]
      have hmain := findState_map_ite sid nt
        (fun r => { r with last_sent_at := now, suppressed_count := 0,
                           last_payload_hash := payload.map hashPayload,
                           updated_at := now })
        (fun r => ⟨rfl, rfl⟩) db.states row hrow
      exact ⟨_, hmain, rfl, rfl, rfl, rfl⟩
    · have hst : upsertState now sid nt (payload.map hashPayload) db.states =
          db.states ++ [{ session_id := sid, notification_type := nt,
                          last_sent_at := now, suppressed_count := 0,
                          last_payload_hash := payload.map hashPayload,
                          created_at := now, updated_at := now }] := by
        unfold upsertState
        rw [if_neg hex]
      rw [hst, find?_append_left_none]
      · refine ⟨⟨sid, nt, now, 0, payload.map hashPayload, now, now⟩, ?_, rfl, rfl, rfl, rfl⟩
        simp
      · intro a ha
        have := List.any_eq_false.mp (Bool.eq_false_iff.mpr hex) a ha
        simpa using this
  · intro pl hpl
    subst hpl
    refine ⟨⟨sid, nt, hashPayload pl, now⟩, ?_, rfl⟩
    show (upsertDedup now sid nt (hashPayload pl) db.dedup).find? _ = _
    unfold upsertDedup
    rw [find?_append_left_none]
    · simp
    · intro a ha
      have h2 := (List.mem_filter.mp ha).2
      simp only [Bool.not_eq_true'] at h2
      exact h2
  · intro h
    subst h
    rfl

/-- Witness for C7: recording a send for an existing pair with a payload. -/
theorem C7_record_sent_resets_witness :
    (recordSent 1000 "s1" "permission" (some wPayload) ⟨[wState], []⟩).1 =
      wState.suppressed_count ∧
    (∃ row', findState
        (recordSent 1000 "s1" "permission" (some wPayload) ⟨[wState], []⟩).2
        "s1" "permission" = some row' ∧
      row'.last_sent_at = 1000 ∧ row'.suppressed_count = 0 ∧
      row'.last_payload_hash = (some wPayload).map hashPayload ∧
      row'.updated_at = 1000) ∧
    (∃ e, findDedup
        (recordSent 1000 "s1" "permission" (some wPayload) ⟨[wState], []⟩).2
        "s1" "permission" (hashPayload wPayload) = some e ∧ e.sent_at = 1000) := by
  have h := C7_record_sent_resets 1000 "s1" "permission" (some wPayload) ⟨[wState], []⟩
  exact ⟨h.1 wState rfl, h.2.2.1, h.2.2.2.1 wPayload rfl⟩

end SlackNotif

namespace SlackNotif

/-- C8 (amended): with rate limiting enabled and no prior state row for the
pair, `should_send` always allows; the reason is "first_notification" exactly
when the resolved cooldown is nonzero — a type whose resolved cooldown is 0 is
answered "no_cooldown" before the state lookup ever happens. -/
theorem C8_first_should_send_allowed :
    ∀ (cfg : RateLimitConfig) (now : Int) (sid nt : String)
      (payload : Option Payload) (db : LimiterDB),
      cfg.enabled = true →
      findState db sid nt = none →
      (shouldSend cfg now sid nt payload db).1.allowed = true ∧
      (getCooldown cfg nt ≠ 0 →
        shouldSend cfg now sid nt payload db =
          (⟨true, "first_notification", 0, none, 0⟩, db)) ∧
      (getCooldown cfg nt = 0 →
        shouldSend cfg now sid nt payload db =
          (⟨true, "no_cooldown", 0, none, 0⟩, db)) := by
  intro cfg now sid nt payload db hen hnone
  by_cases hc : getCooldown cfg nt = 0
  · have hres : shouldSend cfg now sid nt payload db =
        (⟨true, "no_cooldown", 0, none, 0⟩, db) := by
      unfold shouldSend
      rw [hen]
      simp only [Bool.not_true, Bool.false_eq_true, if_false, if_pos hc]
    exact ⟨by rw [hres], fun h => absurd hc h, fun _ => hres⟩
  · have hres : shouldSend cfg now sid nt payload db =
        (⟨true, "first_notification", 0, none, 0⟩, db) := by
      unfold shouldSend
      rw [hen, hnone]
      simp only [Bool.not_true, Bool.false_eq_true, if_false, if_neg hc]
    exact ⟨by rw [hres], fun _ => hres, fun h => absurd h hc⟩

/-- C8 counterexample: for a fresh (session, type) pair whose resolved cooldown
is 0 (here type "complete" with rate limiting enabled), `should_send` allows
with reason "no_cooldown", not "first_notification" as the claim states for
all types. -/
theorem C8_counterexample_zero_cooldown :
    wCfgZero.enabled = true ∧
    getCooldown wCfgZero "complete" = 0 ∧
    findState ⟨[], []⟩ "s1" "complete" = none ∧
    (shouldSend wCfgZero 1000 "s1" "complete" none ⟨[], []⟩).1.allowed = true ∧
    (shouldSend wCfgZero 1000 "s1" "complete" none ⟨[], []⟩).1.reason =
      "no_cooldown" ∧
    (shouldSend wCfgZero 1000 "s1" "complete" none ⟨[], []⟩).1.reason ≠
      "first_notification" := by
  refine ⟨rfl, by decide, rfl, rfl, rfl, ?_⟩
  decide

/-- Witness for C8 on a nonzero-cooldown type and a fresh pair. -/
theorem C8_first_should_send_allowed_witness :
    (shouldSend wCfg 0 "s2" "permission" none ⟨[], []⟩).1.allowed = true ∧
    shouldSend wCfg 0 "s2" "permission" none ⟨[], []⟩ =
      (⟨true, "first_notification", 0, none, 0⟩, (⟨[], []⟩ : LimiterDB)) := by
  have h := C8_first_should_send_allowed wCfg 0 "s2" "permission" none ⟨[], []⟩ rfl rfl
  exact ⟨h.1, h.2.1 (by decide)⟩

end SlackNotif

namespace SlackNotif

/-- C6 (amended): once the cooldown has elapsed (rate limiting enabled,
positive cooldown, existing state row, elapsed ≥ cooldown), `should_send`
rejects with reason "duplicate_suppressed" and increments the suppressed count
exactly when deduplication is enabled, a payload was supplied, and a
`dedup_history` entry for (session, type, hash of the payload's tool_name,
tool_input, notification_type) satisfies the *strict* window test
`now - window < sent_at`; otherwise it allows with reason "cooldown_expired"
and the current pre-reset suppressed count, leaving the database unchanged —
in particular a payload differing in `tool_input` from everything recorded is
allowed. -/
theorem C6_dedup_window_strict :
    ∀ (cfg : RateLimitConfig) (now : Int) (sid nt : String)
      (payload : Option Payload) (db : LimiterDB) (row : RLState),
      cfg.enabled = true →
      0 < getCooldown cfg nt →
      findState db sid nt = some row →
      getCooldown cfg nt ≤ now - row.last_sent_at →
      (((shouldSend cfg now sid nt payload db).1.allowed = false) ↔
        (cfg.dedup_enabled = true ∧ ∃ p, payload = some p ∧
          ∃ e ∈ db.dedup, e.session_id = sid ∧ e.notification_type = nt ∧
            e.payload_hash = hashPayload p ∧
            now - cfg.dedup_window_seconds < e.sent_at)) ∧
      ((shouldSend cfg now sid nt payload db).1.allowed = false →
        (shouldSend cfg now sid nt payload db).1.reason = "duplicate_suppressed" ∧
        (shouldSend cfg now sid nt payload db).1.suppressed_count =
          row.suppressed_count + 1 ∧
        findState (shouldSend cfg now sid nt payload db).2 sid nt =
          some { row with suppressed_count := row.suppressed_count + 1,
                          updated_at := now }) ∧
      ((shouldSend cfg now sid nt payload db).1.allowed = true →
        (shouldSend cfg now sid nt payload db).1.reason = "cooldown_expired" ∧
        (shouldSend cfg now sid nt payload db).1.suppressed_count =
          row.suppressed_count ∧
        (shouldSend cfg now sid nt payload db).2 = db) ∧
      (∀ p q, payload = some p →
        (∀ e ∈ db.dedup, e.session_id = sid → e.notification_type = nt →
          e.payload_hash = hashPayload q) →
        p.tool_input ≠ q.tool_input →
        (shouldSend cfg now sid nt payload db).1.allowed = true) := by
  intro cfg now sid nt payload db row hen hpos hfind hge
  have hne : ¬getCooldown cfg nt = 0 := by omega
  have hnlt : ¬now - row.last_sent_at < getCooldown cfg nt := by omega
  cases payload with
  | none =>
    have hres : shouldSend cfg now sid nt none db =
        (⟨true, "cooldown_expired", row.suppressed_count,
          some row.last_sent_at, 0⟩, db) := by
      unfold shouldSend
      rw [hen, hfind]
      simp only [Bool.not_true, Bool.false_eq_true, if_false, if_neg hne, if_neg hnlt]
    refine ⟨?_, ?_, ?_, ?_⟩
    · rw [hres]
      constructor
      · intro hfalse
        simp at hfalse
      · rintro ⟨-, p, hp, -⟩
        exact absurd hp (by simp)
    · intro hall
      rw [hres] at hall
      simp at hall
    · intro _
      exact ⟨by rw [hres], by rw [hres], by rw [hres]⟩
    · intro p q hp
      exact absurd hp (by simp)
  | some p0 =>
    have hdup : (cfg.dedup_enabled &&
        isDuplicate db cfg.dedup_window_seconds now sid nt (hashPayload p0)) = true ↔
        (cfg.dedup_enabled = true ∧ ∃ p, (some p0 : Option Payload) = some p ∧
          ∃ e ∈ db.dedup, e.session_id = sid ∧ e.notification_type = nt ∧
            e.payload_hash = hashPayload p ∧
            now - cfg.dedup_window_seconds < e.sent_at) := by
      rw [Bool.and_eq_true]
      constructor
      · rintro ⟨hde, hdupb⟩
        obtain ⟨e, he, hpe⟩ := List.any_eq_true.mp hdupb
        simp only [Bool.and_eq_true, beq_iff_eq, decide_eq_true_eq] at hpe
        exact ⟨hde, p0, rfl, e, he, hpe.1.1.1, hpe.1.1.2, hpe.1.2, hpe.2⟩
      · rintro ⟨hde, p', hp', e, he, h1, h2, h3, h4⟩
        cases hp'
        refine ⟨hde, List.any_eq_true.mpr ⟨e, he, ?_⟩⟩
        simp only [Bool.and_eq_true, beq_iff_eq, decide_eq_true_eq]
        exact ⟨⟨⟨h1, h2⟩, h3⟩, h4⟩
    by_cases hd : (cfg.dedup_enabled &&
        isDuplicate db cfg.dedup_window_seconds now sid nt (hashPayload p0)) = true
    · have hres : shouldSend cfg now sid nt (some p0) db =
          (⟨false, "duplicate_suppressed", row.suppressed_count + 1,
            some row.last_sent_at, 0⟩, incrementSuppressed now sid nt db) := by
        unfold shouldSend
        rw [hen, hfind]
        simp only [Bool.not_true, Bool.false_eq_true, if_false, if_neg hne,
          if_neg hnlt, if_pos hd]
      refine ⟨?_, ?_, ?_, ?_⟩
      · rw [hres]
        simpa using hdup.mp hd
      · intro _
        refine ⟨by rw [hres], by rw [hres], ?_⟩
        rw [hres]
        show (incrementSuppressed now sid nt db).states.find? _ = _
        exact findState_map_ite sid nt
          (fun r => { r with suppressed_count := r.suppressed_count + 1,
                             updated_at := now })
          (fun r => ⟨rfl, rfl⟩) db.states row hfind
      · intro hall
        rw [hres] at hall
        simp at hall
      · intro p q hp hq hti
        obtain ⟨-, p', hp', e, he, h1, h2, h3, -⟩ := hdup.mp hd
        cases hp'
        cases hp
        have h5 := hq e he h1 h2
        rw [h3] at h5
        exact absurd (congrArg PayloadHash.tool_input h5) hti
    · have hres : shouldSend cfg now sid nt (some p0) db =
          (⟨true, "cooldown_expired", row.suppressed_count,
            some row.last_sent_at, 0⟩, db) := by
        unfold shouldSend
        rw [hen, hfind]
        simp only [Bool.not_true, Bool.false_eq_true, if_false, if_neg hne,
          if_neg hnlt, if_neg hd]
      refine ⟨?_, ?_, ?_, ?_⟩
      · rw [hres]
        constructor
        · intro hfalse
          simp at hfalse
        · intro hcond
          exact absurd (hdup.mpr hcond) hd
      · intro hall
        rw [hres] at hall
        simp at hall
      · intro _
        exact ⟨by rw [hres], by rw [hres], by rw [hres]⟩
      · intro _ _ _ _ _
        rw [hres]

/-- C6 counterexample: dedup enabled, entry exactly at the window boundary
(`sent_at = now - window`, satisfying the claim's non-strict condition
`now - window ≤ sent_at`), matching session, type and hash, cooldown elapsed —
yet the code's strict `sent_at > now - window` admits the payload with reason
"cooldown_expired" instead of rejecting it as a duplicate. -/
theorem C6_counterexample_window_boundary :
    wCfg.dedup_enabled = true ∧
    findState wBoundaryDB "s1" "permission" = some wState ∧
    getCooldown wCfg "permission" ≤ 1000 - wState.last_sent_at ∧
    (∃ e ∈ wBoundaryDB.dedup, e.session_id = "s1" ∧
      e.notification_type = "permission" ∧
      e.payload_hash = hashPayload wPayload ∧
      1000 - wCfg.dedup_window_seconds ≤ e.sent_at) ∧
    (shouldSend wCfg 1000 "s1" "permission" (some wPayload) wBoundaryDB).1.allowed
      = true ∧
    (shouldSend wCfg 1000 "s1" "permission" (some wPayload) wBoundaryDB).1.reason
      = "cooldown_expired" := by
  refine ⟨rfl, rfl, by decide, ⟨⟨"s1", "permission", hashPayload wPayload, 700⟩,
    by decide, rfl, rfl, rfl, by decide⟩, rfl, rfl⟩

/-- Witness for C6: one second inside the (strict) window the same payload is
rejected as a duplicate with the incremented suppressed count. -/
theorem C6_dedup_window_strict_witness :
    (shouldSend wCfg 999 "s1" "permission" (some wPayload) wBoundaryDB).1.allowed
      = false ∧
    (shouldSend wCfg 999 "s1" "permission" (some wPayload) wBoundaryDB).1.reason
      = "duplicate_suppressed" ∧
    (shouldSend wCfg 999 "s1" "permission" (some wPayload) wBoundaryDB).1.suppressed_count
      = wState.suppressed_count + 1 := by
  have h := C6_dedup_window_strict wCfg 999 "s1" "permission" (some wPayload)
    wBoundaryDB wState rfl (by decide) rfl (by decide)
  have hfalse : (shouldSend wCfg 999 "s1" "permission" (some wPayload)
      wBoundaryDB).1.allowed = false :=
    h.1.mpr ⟨rfl, wPayload, rfl,
      ⟨"s1", "permission", hashPayload wPayload, 700⟩, by decide, rfl, rfl, rfl,
      by decide⟩
  exact ⟨hfalse, (h.2.1 hfalse).1, (h.2.1 hfalse).2.1⟩

end SlackNotif

namespace SlackNotif

theorem getElem?_map_ite {st : List Notification} {i : Nat} {r : Notification}
    (hget : st[i]? = some r) (p : Notification → Bool)
    (f : Notification → Notification) :
    (st.map fun r0 => if p r0 then f r0 else r0)[i]? =
      some (if p r then f r else r) := by
  rw [List.getElem?_map, hget]
  rfl

theorem mem_take_sort_filter {now : Int} {n : Nat} {st : List Notification}
    {r0 : Notification}
    (h : r0 ∈ (sortByCreated (st.filter (eligibleB now))).take n) :
    r0 ∈ st ∧ eligibleB now r0 = true := by
  have h1 := List.mem_of_mem_take h
  have h2 : r0 ∈ st.filter (eligibleB now) :=
    (List.perm_insertionSort createdLe (st.filter (eligibleB now))).mem_iff.mp h1
  exact ⟨(List.mem_filter.mp h2).1, (List.mem_filter.mp h2).2⟩

theorem eligibleB_status {now : Int} {r : Notification}
    (h : eligibleB now r = true) : r.status = .pending ∨ r.status = .failed := by
  unfold eligibleB at h
  simp only [Bool.or_eq_true, Bool.and_eq_true, decide_eq_true_eq] at h
  rcases h with h | ⟨h, -⟩
  · exact Or.inl h
  · exact Or.inr h

theorem dequeue_eq (now b : Int) (st : List Notification) :
    dequeue now b st =
      if b ≤ 0 then ([], st)
      else
        if ((sortByCreated (st.filter (eligibleB now))).take b.toNat).isEmpty then
          ([], st)
        else
          (((sortByCreated (st.filter (eligibleB now))).take b.toNat).map
              fun r => { r with status := .processing },
           st.map fun r =>
             if (((sortByCreated (st.filter (eligibleB now))).take b.toNat).map
                  (·.id)).contains r.id
             then { r with status := .processing } else r) := rfl

theorem enqueue_snd (now : Int) (et p sid be : String) (eid : Option Nat)
    (st : List Notification) :
    (enqueue now et p sid be eid st).2 =
      st ++ [⟨nextId st, eid.getD 0, sid, et, be, .pending, 0, p, none, now,
              none, none⟩] := rfl

/-- C4 (amended): a dead-lettered row is never changed by `mark_failed` (for
the retry counts the queue actually produces, `retry_count ≥ MAX_RETRIES`), by
`dequeue` (dead_letter rows are never eligible), or by `enqueue`; but
`mark_sent` called with the dead-lettered id is not guarded by status and sets
the row to `sent` with `sent_at = now`. -/
theorem C4_dead_letter_permanence :
    ∀ (st : List Notification) (i : Nat) (r : Notification),
      (st.map (·.id)).Nodup →
      st[i]? = some r →
      r.status = .dead_letter →
      (∀ (now b : Int), ((dequeue now b st).2)[i]? = some r) ∧
      (∀ (now : Int) (et p sid be : String) (eid : Option Nat),
        ((enqueue now et p sid be eid st).2)[i]? = some r) ∧
      (∀ (now : Int) (id : Nat) (err : String), MAX_RETRIES ≤ r.retry_count →
        ∃ r', (markFailed now id err st)[i]? = some r' ∧
          r'.status = .dead_letter) ∧
      (∀ now : Int, (markSent now r.id st)[i]? =
        some { r with status := .sent, sent_at := some now }) := by
  intro st i r hnd hget hdl
  have hmem : r ∈ st := List.getElem?_mem hget
  have hlen : i < st.length := by
    rcases List.getElem?_eq_some.mp hget with ⟨h, -⟩
    exact h
  refine ⟨?_, ?_, ?_, ?_⟩
  · intro now b
    rw [dequeue_eq]
    by_cases hb : b ≤ 0
    · rw [if_pos hb]
      exact hget
    · rw [if_neg hb]
      by_cases he : ((sortByCreated (st.filter (eligibleB now))).take b.toNat).isEmpty
      · rw [if_pos he]
        exact hget
      · rw [if_neg he]
        show (st.map fun r0 =>
            if (((sortByCreated (st.filter (eligibleB now))).take b.toNat).map
                  (·.id)).contains r0.id
            then { r0 with status := .processing } else r0)[i]? = some r
        rw [getElem?_map_ite hget]
        by_cases hc : (((sortByCreated (st.filter (eligibleB now))).take b.toNat).map
            (·.id)).contains r.id = true
        · exfalso
          have hmemid : r.id ∈ ((sortByCreated (st.filter (eligibleB now))).take
              b.toNat).map (·.id) := List.elem_iff.mp hc
          obtain ⟨r0, hr0, hr0id⟩ := List.mem_map.mp hmemid
          obtain ⟨hr0st, hr0el⟩ := mem_take_sort_filter hr0
          have : r0 = r := List.inj_on_of_nodup_map hnd hr0st hmem hr0id
          subst this
          rcases eligibleB_status hr0el with h | h <;> rw [hdl] at h <;> cases h
        · rw [if_neg hc]
  · intro now et p sid be eid
    rw [enqueue_snd, List.getElem?_append_left hlen]
    exact hget
  · intro now id err hge5
    by_cases hid : id = r.id
    · subst hid
      have hex : ∃ row0, findRow st r.id = some row0 := by
        cases hf : findRow st r.id with
        | none =>
          exact absurd (by simp : (r.id == r.id) = true)
            (by simpa using List.find?_eq_none.mp hf r hmem)
        | some row0 => exact ⟨row0, rfl⟩
      obtain ⟨row0, hf0⟩ := hex
      have hrow0mem := List.mem_of_find?_eq_some hf0
      have hrow0id : row0.id = r.id := by simpa using List.find?_some hf0
      have heq : row0 = r := List.inj_on_of_nodup_map hnd hrow0mem hmem hrow0id
      rw [heq] at hf0
      have hgt : r.retry_count + 1 > MAX_RETRIES := by omega
      have hst : markFailed now r.id err st =
          st.map fun r0 =>
            if r0.id == r.id then
              { r0 with status := .dead_letter, retry_count := r.retry_count + 1,
                        error := some err }
            else r0 := by
        unfold markFailed
        rw [hf0]
        simp only [if_pos hgt]
      rw [hst, getElem?_map_ite hget]
      refine ⟨_, rfl, ?_⟩
      rw [if_pos (beq_self_eq_true r.id)]
    · cases hf : findRow st id with
      | none =>
        have hsame : markFailed now id err st = st := by
          unfold markFailed
          rw [hf]
        rw [hsame]
        exact ⟨r, hget, hdl⟩
      | some row0 =>
        have hne' : (r.id == id) = false := by
          simp only [beq_eq_false_iff_ne, ne_eq]
          exact fun h => hid h.symm
        by_cases hc : row0.retry_count + 1 > MAX_RETRIES
        · have hst : markFailed now id err st =
              st.map fun r0 =>
                if r0.id == id then
                  { r0 with status := .dead_letter,
                            retry_count := row0.retry_count + 1,
                            error := some err }
                else r0 := by
            unfold markFailed
            rw [hf]
            simp only [if_pos hc]
          rw [hst, getElem?_map_ite hget]
          refine ⟨_, rfl, ?_⟩
          simp only [hne', Bool.false_eq_true, if_false]
          exact hdl
        · have hst : markFailed now id err st =
              st.map fun r0 =>
                if r0.id == id then
                  { r0 with status := .failed,
                            retry_count := row0.retry_count + 1,
                            error := some err,
                            next_retry_at := some (now +
                              RETRY_DELAYS.getD (min row0.retry_count 4) 0) }
                else r0 := by
            unfold markFailed
            rw [hf]
            simp only [if_neg hc]
            rfl
          rw [hst, getElem?_map_ite hget]
          refine ⟨_, rfl, ?_⟩
          simp only [hne', Bool.false_eq_true, if_false]
          exact hdl
  · intro now
    show (st.map fun r0 =>
        if r0.id == r.id then { r0 with status := .sent, sent_at := some now }
        else r0)[i]? = some { r with status := .sent, sent_at := some now }
    rw [getElem?_map_ite hget]
    rw [if_pos (beq_self_eq_true r.id)]

/-- C4 counterexample: `mark_sent` on a dead-lettered id moves the row's
status away from `dead_letter` to `sent`, contradicting permanence under all
queue API calls. -/
theorem C4_counterexample_markSent_revives :
    wDeadRow.status = .dead_letter ∧
    (markSent 100 7 [wDeadRow])[0]? =
      some { wDeadRow with status := .sent, sent_at := some 100 } ∧
    ((markSent 100 7 [wDeadRow])[0]?).map (·.status) ≠
      some NStatus.dead_letter := by
  refine ⟨rfl, rfl, ?_⟩
  decide

/-- Witness for C4 on a one-row dead-letter queue. -/
theorem C4_dead_letter_permanence_witness :
    ((dequeue 100 5 [wDeadRow]).2)[0]? = some wDeadRow ∧
    (∃ r', (markFailed 100 7 "again" [wDeadRow])[0]? = some r' ∧
      r'.status = .dead_letter) ∧
    (markSent 100 wDeadRow.id [wDeadRow])[0]? =
      some { wDeadRow with status := .sent, sent_at := some 100 } := by
  have h := C4_dead_letter_permanence [wDeadRow] 0 wDeadRow (by decide) rfl rfl
  exact ⟨h.1 100 5, h.2.2.1 100 7 "again" (by decide), h.2.2.2 100⟩

end SlackNotif

namespace SlackNotif

theorem map_id_of_preserve (g : Notification → Notification)
    (hg : ∀ r, (g r).id = r.id) :
    ∀ st : List Notification, (st.map g).map (·.id) = st.map (·.id) := by
  intro st
  induction st with
  | nil => rfl
  | cons b l ih => simp only [List.map_cons, hg b, ih]

theorem sendNotif_shape (now : Int) (oracle : Nat → Option String)
    (st : List Notification) (id : Nat) (b : Bool) (st' : List Notification)
    (h : sendNotification now oracle st id = some (b, st')) :
    ∃ g : Notification → Notification,
      st' = st.map g ∧ (∀ r, (g r).id = r.id) ∧
      (∀ r, g r = r ∨ (r.id = id ∧
        ((g r).status = .sent ∨ (g r).status = .failed))) := by
  unfold sendNotification at h
  cases hf : findRow st id with
  | none =>
    rw [hf] at h
    simp at h
  | some notif =>
    rw [hf] at h
    cases ho : oracle id with
    | none =>
      rw [ho] at h
      have hst : st' = senderMarkSent now id st := by
        injection h with h1
        injection h1 with _ h2
        exact h2.symm
      refine ⟨fun r => if r.id == id then
          { r with status := .sent, sent_at := some now } else r, hst, ?_, ?_⟩
      · intro r
        by_cases hr : (r.id == id) = true <;> simp [hr]
      · intro r
        by_cases hr : (r.id == id) = true
        · exact Or.inr ⟨by simpa using hr, by simp [hr]⟩
        · exact Or.inl (by simp [hr])
    | some err =>
      rw [ho] at h
      have hst : st' = senderMarkFailed id notif.retry_count err st := by
        injection h with h1
        injection h1 with _ h2
        exact h2.symm
      refine ⟨fun r => if r.id == id then
          { r with status := .failed, retry_count := notif.retry_count + 1,
                   error := some err } else r, hst, ?_, ?_⟩
      · intro r
        by_cases hr : (r.id == id) = true <;> simp [hr]
      · intro r
        by_cases hr : (r.id == id) = true
        · exact Or.inr ⟨by simpa using hr, by simp [hr]⟩
        · exact Or.inl (by simp [hr])

theorem pqSelect_mem (m b : Int) (st : List Notification) :
    ∀ id ∈ pqSelect m b st, ∃ r0 ∈ st, r0.id = id ∧
      (r0.status = .pending ∨ r0.status = .failed) := by
  intro id hid
  obtain ⟨r0, hr0, hid0⟩ := List.mem_map.mp hid
  have hr1 : r0 ∈ sortByCreated (st.filter fun r =>
      decide (r.status = .pending) ||
        (decide (r.status = .failed) && decide ((r.retry_count : Int) < m))) := by
    unfold sqlLimit at hr0
    by_cases hb : b < 0
    · rw [if_pos hb] at hr0
      exact hr0
    · rw [if_neg hb] at hr0
      exact List.mem_of_mem_take hr0
  have hr2 := (List.perm_insertionSort createdLe _).mem_iff.mp hr1
  have h3 := List.mem_filter.mp hr2
  refine ⟨r0, h3.1, hid0, ?_⟩
  have hp := h3.2
  simp only [Bool.or_eq_true, Bool.and_eq_true, decide_eq_true_eq] at hp
  rcases hp with h | ⟨h, -⟩
  · exact Or.inl h
  · exact Or.inr h

theorem processQueueGo_invariant (now : Int) (oracle : Nat → Option String)
    (st0 : List Notification) (hnd : (st0.map (·.id)).Nodup) :
    ∀ (ids : List Nat),
      (∀ id ∈ ids, ∃ r0 ∈ st0, r0.id = id ∧
        (r0.status = .pending ∨ r0.status = .failed)) →
      ∀ (k : Nat) (cur : List Notification),
        cur.map (·.id) = st0.map (·.id) →
        (∀ (i : Nat) (r r' : Notification), st0[i]? = some r → cur[i]? = some r' →
          r' = r ∨ ((r.status = .pending ∨ r.status = .failed) ∧
            (r'.status = .sent ∨ r'.status = .failed))) →
        ((processQueueGo now oracle ids k cur).2).map (·.id) =
          st0.map (·.id) ∧
        (∀ (i : Nat) (r r' : Notification), st0[i]? = some r →
          ((processQueueGo now oracle ids k cur).2)[i]? = some r' →
          r' = r ∨ ((r.status = .pending ∨ r.status = .failed) ∧
            (r'.status = .sent ∨ r'.status = .failed))) := by
  intro ids
  induction ids with
  | nil =>
    intro _ k cur hcids hcur
    exact ⟨hcids, hcur⟩
  | cons id rest ih =>
    intro hmem k cur hcids hcur
    cases hsend : sendNotification now oracle cur id with
    | none =>
      have hstep : processQueueGo now oracle (id :: rest) k cur =
          processQueueGo now oracle rest k cur := by
        simp only [processQueueGo, hsend]
      rw [hstep]
      exact ih (fun i hi => hmem i (List.mem_cons_of_mem _ hi)) k cur hcids hcur
    | some pr =>
      obtain ⟨b, st'⟩ := pr
      have hstep : processQueueGo now oracle (id :: rest) k cur =
          processQueueGo now oracle rest (k + 1) st' := by
        simp only [processQueueGo, hsend]
      rw [hstep]
      obtain ⟨g, hgst, hgid, hgcase⟩ := sendNotif_shape now oracle cur id b st' hsend
      have hcids' : st'.map (·.id) = st0.map (·.id) := by
        rw [hgst, map_id_of_preserve g hgid cur, hcids]
      have hcur' : ∀ (i : Nat) (r r' : Notification), st0[i]? = some r →
          st'[i]? = some r' →
          r' = r ∨ ((r.status = .pending ∨ r.status = .failed) ∧
            (r'.status = .sent ∨ r'.status = .failed)) := by
        intro i r r'' hr hr''
        have hi : i < st0.length := (List.getElem?_eq_some.mp hr).1
        have hcl : cur.length = st0.length := by
          have := congrArg List.length hcids
          simpa using this
        obtain ⟨rc, hrc⟩ : ∃ rc, cur[i]? = some rc := by
          cases hc : cur[i]? with
          | none =>
            have := List.getElem?_eq_none_iff.mp hc
            omega
          | some rc => exact ⟨rc, rfl⟩
        have hgc : st'[i]? = some (g rc) := by
          rw [hgst, List.getElem?_map, hrc]
          rfl
        have hr'eq : r'' = g rc := by
          rw [hgc] at hr''
          exact (Option.some.inj hr'').symm
        subst hr'eq
        have hrcid : rc.id = r.id := by
          have h1 : (cur[i]?).map (·.id) = (st0[i]?).map (·.id) := by
            rw [← List.getElem?_map, ← List.getElem?_map, hcids]
          rw [hrc, hr] at h1
          simpa using h1
        rcases hgcase rc with hgr | ⟨hgidr, hgstat⟩
        · rw [hgr]
          exact hcur i r rc hr hrc
        · right
          refine ⟨?_, hgstat⟩
          obtain ⟨r0, hr0mem, hr0id, hr0stat⟩ := hmem id (List.mem_cons_self _ _)
          have hrmem : r ∈ st0 := List.getElem?_mem hr
          have heq : r0 = r := List.inj_on_of_nodup_map hnd hr0mem hrmem
            (by rw [hr0id, ← hgidr, hrcid])
          rw [← heq]
          exact hr0stat
      exact ih (fun i hi => hmem i (List.mem_cons_of_mem _ hi)) (k + 1) st'
        hcids' hcur'

theorem processQueueGo_count (now : Int) (oracle : Nat → Option String) :
    ∀ (ids : List Nat) (k : Nat) (cur : List Notification),
      (∀ id ∈ ids, id ∈ cur.map (·.id)) →
      (processQueueGo now oracle ids k cur).1 = k + ids.length := by
  intro ids
  induction ids with
  | nil =>
    intro k cur _
    simp [processQueueGo]
  | cons id rest ih =>
    intro k cur hmem
    obtain ⟨r, hr, hrid⟩ := List.mem_map.mp (hmem id (List.mem_cons_self _ _))
    obtain ⟨row, hfrow⟩ : ∃ row, findRow cur id = some row := by
      cases hf : findRow cur id with
      | none =>
        exact absurd (by simp [hrid] : (r.id == id) = true)
          (List.find?_eq_none.mp hf r hr)
      | some row => exact ⟨row, rfl⟩
    have hmemrest : ∀ g : Notification → Notification, (∀ r0, (g r0).id = r0.id) →
        ∀ id' ∈ rest, id' ∈ (cur.map g).map (·.id) := by
      intro g hg id' hid'
      rw [map_id_of_preserve g hg cur]
      exact hmem id' (List.mem_cons_of_mem _ hid')
    cases ho : oracle id with
    | none =>
      have hsend : sendNotification now oracle cur id =
          some (true, senderMarkSent now id cur) := by
        unfold sendNotification
        rw [hfrow, ho]
      have hstep : processQueueGo now oracle (id :: rest) k cur =
          processQueueGo now oracle rest (k + 1) (senderMarkSent now id cur) := by
        simp only [processQueueGo, hsend]
      rw [hstep]
      have hih := ih (k + 1) (senderMarkSent now id cur)
        (hmemrest
          (fun r0 => if r0.id == id then
            { r0 with status := .sent, sent_at := some now } else r0)
          (fun r0 => by by_cases h : (r0.id == id) = true <;> simp [h]))
      rw [hih]
      simp only [List.length_cons]
      omega
    | some err =>
      have hsend : sendNotification now oracle cur id =
          some (false, senderMarkFailed id row.retry_count err cur) := by
        unfold sendNotification
        rw [hfrow, ho]
      have hstep : processQueueGo now oracle (id :: rest) k cur =
          processQueueGo now oracle rest (k + 1)
            (senderMarkFailed id row.retry_count err cur) := by
        simp only [processQueueGo, hsend]
      rw [hstep]
      have hih := ih (k + 1) (senderMarkFailed id row.retry_count err cur)
        (hmemrest
          (fun r0 => if r0.id == id then
            { r0 with status := .failed, retry_count := row.retry_count + 1,
                      error := some err } else r0)
          (fun r0 => by by_cases h : (r0.id == id) = true <;> simp [h]))
      rw [hih]
      simp only [List.length_cons]
      omega

end SlackNotif

namespace SlackNotif

/-- C3 (amended): statuses always lie in {pending, processing, sent, failed,
dead_letter} (the `NStatus` type), and each operation's per-row transitions
are: `enqueue` appends a fresh `pending` row and touches nothing else;
`dequeue` changes a row only from `pending` or `failed` to `processing`;
`mark_sent` sets the target row to `sent` from *any* prior status (it is not
guarded, so pending→sent is possible); `mark_failed` sets the target row to
`failed` or `dead_letter` from any prior status; and the dispatcher's
`process_queue` moves selected rows (pending, or failed with
retry_count < max_retries) directly to `sent` or `failed` without an
intermediate `processing` state. -/
theorem C3_status_transitions :
    (∀ (st : List Notification) (now : Int) (et p sid be : String)
       (eid : Option Nat), ∃ nrow,
      (enqueue now et p sid be eid st).2 = st ++ [nrow] ∧
        nrow.status = .pending) ∧
    (∀ (st : List Notification) (now b : Int) (i : Nat) (r r' : Notification),
      (st.map (·.id)).Nodup → st[i]? = some r →
      ((dequeue now b st).2)[i]? = some r' →
      r' = r ∨ (r' = { r with status := .processing } ∧
        (r.status = .pending ∨ r.status = .failed))) ∧
    (∀ (st : List Notification) (now : Int) (id : Nat) (i : Nat)
       (r r' : Notification),
      st[i]? = some r → (markSent now id st)[i]? = some r' →
      r' = r ∨ r' = { r with status := .sent, sent_at := some now }) ∧
    (∀ (st : List Notification) (now : Int) (id : Nat) (err : String) (i : Nat)
       (r r' : Notification),
      st[i]? = some r → (markFailed now id err st)[i]? = some r' →
      r' = r ∨ r'.status = .failed ∨ r'.status = .dead_letter) ∧
    (∀ (st : List Notification) (now : Int) (oracle : Nat → Option String)
       (b m : Int) (i : Nat) (r r' : Notification),
      (st.map (·.id)).Nodup → st[i]? = some r →
      ((processQueue now oracle st b m).2)[i]? = some r' →
      r' = r ∨ ((r.status = .pending ∨ r.status = .failed) ∧
        (r'.status = .sent ∨ r'.status = .failed))) := by
  refine ⟨?_, ?_, ?_, ?_, ?_⟩
  · intro st now et p sid be eid
    exact ⟨_, enqueue_snd now et p sid be eid st, rfl⟩
  · intro st now b i r r' hnd hget hget'
    rw [dequeue_eq] at hget'
    by_cases hb : b ≤ 0
    · rw [if_pos hb] at hget'
      rw [hget] at hget'
      exact Or.inl (Option.some.inj hget').symm
    · rw [if_neg hb] at hget'
      by_cases he : ((sortByCreated (st.filter (eligibleB now))).take b.toNat).isEmpty
      · rw [if_pos he] at hget'
        rw [hget] at hget'
        exact Or.inl (Option.some.inj hget').symm
      · rw [if_neg he] at hget'
        have h2 : (st.map fun r0 =>
            if (((sortByCreated (st.filter (eligibleB now))).take b.toNat).map
                  (·.id)).contains r0.id
            then { r0 with status := .processing } else r0)[i]? = some r' := hget'
        rw [getElem?_map_ite hget] at h2
        have h3 := (Option.some.inj h2).symm
        by_cases hc : (((sortByCreated (st.filter (eligibleB now))).take
            b.toNat).map (·.id)).contains r.id = true
        · rw [if_pos hc] at h3
          right
          refine ⟨h3, ?_⟩
          have hmemid : r.id ∈ ((sortByCreated (st.filter (eligibleB now))).take
              b.toNat).map (·.id) := List.elem_iff.mp hc
          obtain ⟨r0, hr0, hr0id⟩ := List.mem_map.mp hmemid
          obtain ⟨hr0st, hr0el⟩ := mem_take_sort_filter hr0
          have heq : r0 = r := List.inj_on_of_nodup_map hnd hr0st
            (List.getElem?_mem hget) hr0id
          rw [← heq]
          exact eligibleB_status hr0el
        · rw [if_neg hc] at h3
          exact Or.inl h3
  · intro st now id i r r' hget hget'
    have h2 : (st.map fun r0 =>
        if r0.id == id then { r0 with status := .sent, sent_at := some now }
        else r0)[i]? = some r' := hget'
    rw [getElem?_map_ite hget] at h2
    have h3 := (Option.some.inj h2).symm
    by_cases hc : (r.id == id) = true
    · rw [if_pos hc] at h3
      exact Or.inr h3
    · rw [if_neg hc] at h3
      exact Or.inl h3
  · intro st now id err i r r' hget hget'
    cases hf : findRow st id with
    | none =>
      have hsame : markFailed now id err st = st := by
        unfold markFailed
        rw [hf]
      rw [hsame, hget] at hget'
      exact Or.inl (Option.some.inj hget').symm
    | some row0 =>
      by_cases hc : row0.retry_count + 1 > MAX_RETRIES
      · have hst : markFailed now id err st =
            st.map fun r0 =>
              if r0.id == id then
                { r0 with status := .dead_letter,
                          retry_count := row0.retry_count + 1,
                          error := some err }
              else r0 := by
          unfold markFailed
          rw [hf]
          simp only [if_pos hc]
        rw [hst, getElem?_map_ite hget] at hget'
        have h3 := (Option.some.inj hget').symm
        by_cases hid : (r.id == id) = true
        · rw [if_pos hid] at h3
          exact Or.inr (Or.inr (by rw [h3]))
        · rw [if_neg hid] at h3
          exact Or.inl h3
      · have hst : markFailed now id err st =
            st.map fun r0 =>
              if r0.id == id then
                { r0 with status := .failed,
                          retry_count := row0.retry_count + 1,
                          error := some err,
                          next_retry_at := some (now +
                            RETRY_DELAYS.getD (min row0.retry_count 4) 0) }
              else r0 := by
          unfold markFailed
          rw [hf]
          simp only [if_neg hc]
          rfl
        rw [hst, getElem?_map_ite hget] at hget'
        have h3 := (Option.some.inj hget').symm
        by_cases hid : (r.id == id) = true
        · rw [if_pos hid] at h3
          exact Or.inr (Or.inl (by rw [h3]))
        · rw [if_neg hid] at h3
          exact Or.inl h3
  · intro st now oracle b m i r r' hnd hget hget'
    have hinv := (processQueueGo_invariant now oracle st hnd
      (pqSelect m b st) (pqSelect_mem m b st) 0 st rfl
      (fun i r r' hr hr' => Or.inl (by
        rw [hr] at hr'
        exact (Option.some.inj hr').symm))).2
    exact hinv i r r' hget hget'

/-- C3 counterexample: `mark_sent` moves a pending row directly to `sent`,
a transition outside the claim's allowed relation. -/
theorem C3_counterexample_pending_to_sent :
    wRow.status = .pending ∧
    (markSent 100 1 [wRow])[0]? =
      some { wRow with status := .sent, sent_at := some 100 } ∧
    ¬specAllowedStep .pending .sent := by
  refine ⟨rfl, rfl, ?_⟩
  unfold specAllowedStep
  decide

/-- Witness for C3 on concrete one-row queues. -/
theorem C3_status_transitions_witness :
    (∃ nrow, (enqueue 10 "permission" "{}" "s1" "slack" none []).2 = [] ++ [nrow] ∧
      nrow.status = .pending) ∧
    ((markSent 100 1 [wRow])[0]? = some wRow ∨
      (markSent 100 1 [wRow])[0]? =
        some { wRow with status := .sent, sent_at := some 100 }) ∧
    ((dequeue 100 1 [wRow]).2[0]? = some wRow ∨
      ((dequeue 100 1 [wRow]).2[0]? = some { wRow with status := .processing } ∧
        (wRow.status = .pending ∨ wRow.status = .failed))) := by
  have h := C3_status_transitions
  refine ⟨h.1 [] 10 "permission" "{}" "s1" "slack" none, ?_, ?_⟩
  · have := h.2.2.1 [wRow] 100 1 0 wRow
      { wRow with status := .sent, sent_at := some 100 } rfl (by decide)
    rcases this with h1 | h1
    · exact Or.inl (by rw [← h1]; decide)
    · exact Or.inr (by decide)
  · have := h.2.1 [wRow] 100 1 0 wRow { wRow with status := .processing }
      (by decide) rfl (by decide)
    rcases this with h1 | ⟨h1, h2⟩
    · exact Or.inr ⟨by decide, Or.inl rfl⟩
    · exact Or.inr ⟨by decide, h2⟩

/-- C10: the count returned by `process_queue` equals the number of selected
notifications (pending, or failed with retry_count < max_retries, in
created_at order, limited to the batch size) — every selected notification's
send completes without raising in the sequential model, and a failed delivery
is counted exactly like a successful one, so the count does not depend on the
delivery outcomes at all. -/
theorem C10_process_queue_count :
    ∀ (now : Int) (oracle : Nat → Option String) (st : List Notification)
      (b m : Int),
      (processQueue now oracle st b m).1 = (pqSelect m b st).length ∧
      (∀ oracle2, (processQueue now oracle st b m).1 =
        (processQueue now oracle2 st b m).1) := by
  have key : ∀ (now : Int) (oracle : Nat → Option String)
      (st : List Notification) (b m : Int),
      (processQueue now oracle st b m).1 = (pqSelect m b st).length := by
    intro now oracle st b m
    have h := processQueueGo_count now oracle (pqSelect m b st) 0 st
      (fun id hid => by
        obtain ⟨r0, hr0, hr0id, -⟩ := pqSelect_mem m b st id hid
        exact List.mem_map.mpr ⟨r0, hr0, hr0id⟩)
    simpa using h
  intro now oracle st b m
  exact ⟨key now oracle st b m,
    fun oracle2 => (key now oracle st b m).trans (key now oracle2 st b m).symm⟩

end SlackNotif

namespace SlackNotif

/-- C2: `dequeue(batch_size)` returns exactly the up-to-batch_size eligible
notifications (status pending, or failed with next_retry_at ≤ now) in
created_at order, each returned with status `processing`; it marks exactly the
returned rows `processing` in the table; with batch_size ≤ 0 or no eligible
row it returns the empty list and changes nothing; and every returned row
precedes (by created_at) every eligible row that was skipped. -/
theorem C2_dequeue_selects_eligible_fifo :
    ∀ (now b : Int) (st : List Notification),
      (b ≤ 0 → dequeue now b st = ([], st)) ∧
      (0 < b → (dequeue now b st).1.length =
        min b.toNat (st.countP (eligibleB now))) ∧
      (st.countP (eligibleB now) = 0 → dequeue now b st = ([], st)) ∧
      List.Sorted createdLe (dequeue now b st).1 ∧
      (∀ x ∈ (dequeue now b st).1, x.status = .processing ∧
        ∃ r0 ∈ st, eligibleB now r0 = true ∧
          x = { r0 with status := .processing }) ∧
      ((dequeue now b st).2.length = st.length) ∧
      (∀ (i : Nat) (r : Notification), st[i]? = some r →
        (r.id ∈ (dequeue now b st).1.map (·.id) →
          ((dequeue now b st).2)[i]? =
            some { r with status := .processing }) ∧
        (r.id ∉ (dequeue now b st).1.map (·.id) →
          ((dequeue now b st).2)[i]? = some r)) ∧
      (∀ r0 ∈ st, eligibleB now r0 = true →
        (∃ x ∈ (dequeue now b st).1,
          x = { r0 with status := .processing }) ∨
        (∀ x ∈ (dequeue now b st).1, x.created_at ≤ r0.created_at)) := by
  intro now b st
  have hLperm := List.perm_insertionSort createdLe (st.filter (eligibleB now))
  have hLlen : (sortByCreated (st.filter (eligibleB now))).length =
      st.countP (eligibleB now) := by
    rw [List.countP_eq_length_filter]
    exact hLperm.length_eq
  by_cases hb : b ≤ 0
  · have hd : dequeue now b st = ([], st) := by
      rw [dequeue_eq, if_pos hb]
    refine ⟨fun _ => hd, fun h0 => absurd hb (by omega), fun _ => hd, ?_, ?_,
      by rw [hd], ?_, ?_⟩
    · rw [hd]
      exact List.sorted_nil
    · rw [hd]
      intro x hx
      cases hx
    · intro i r hget
      rw [hd]
      constructor
      · intro hmem
        cases hmem
      · intro _
        exact hget
    · intro r0 _ _
      right
      rw [hd]
      intro x hx
      cases hx
  · by_cases he : ((sortByCreated (st.filter (eligibleB now))).take
        b.toNat).isEmpty
    · have hd : dequeue now b st = ([], st) := by
        rw [dequeue_eq, if_neg hb, if_pos he]
      have hrows0 : ((sortByCreated (st.filter (eligibleB now))).take
          b.toNat).length = 0 := by
        rw [List.isEmpty_iff.mp he]
        rfl
      have hmin0 : min b.toNat (st.countP (eligibleB now)) = 0 := by
        rw [List.length_take, hLlen] at hrows0
        exact hrows0
      refine ⟨fun h0 => absurd h0 hb, fun _ => by rw [hd, hmin0]; rfl,
        fun _ => hd, ?_, ?_, by rw [hd], ?_, ?_⟩
      · rw [hd]
        exact List.sorted_nil
      · rw [hd]
        intro x hx
        cases hx
      · intro i r hget
        rw [hd]
        constructor
        · intro hmem
          cases hmem
        · intro _
          exact hget
      · intro r0 _ _
        right
        rw [hd]
        intro x hx
        cases hx
    · have hd : dequeue now b st =
          (((sortByCreated (st.filter (eligibleB now))).take b.toNat).map
             fun r => { r with status := .processing },
           st.map fun r =>
             if (((sortByCreated (st.filter (eligibleB now))).take b.toNat).map
                  (·.id)).contains r.id
             then { r with status := .processing } else r) := by
        rw [dequeue_eq, if_neg hb, if_neg he]
      have hrowslen : ((sortByCreated (st.filter (eligibleB now))).take
          b.toNat).length = min b.toNat (st.countP (eligibleB now)) := by
        rw [List.length_take, hLlen]
      have hsortL : List.Sorted createdLe
          (sortByCreated (st.filter (eligibleB now))) :=
        List.sorted_insertionSort createdLe (st.filter (eligibleB now))
      have hsortrows : List.Sorted createdLe
          ((sortByCreated (st.filter (eligibleB now))).take b.toNat) :=
        List.Pairwise.sublist (List.take_sublist _ _) hsortL
      have hretids : ((dequeue now b st).1).map (·.id) =
          (((sortByCreated (st.filter (eligibleB now))).take b.toNat)).map
            (·.id) := by
        rw [hd]
        show (((sortByCreated (st.filter (eligibleB now))).take b.toNat).map
            fun r => { r with status := .processing }).map (·.id) = _
        exact map_id_of_preserve (fun r => { r with status := .processing })
          (fun r => rfl) _
      refine ⟨fun h0 => absurd h0 hb, ?_, ?_, ?_, ?_, ?_, ?_, ?_⟩
      · intro _
        rw [hd]
        show (((sortByCreated (st.filter (eligibleB now))).take b.toNat).map
            fun r => { r with status := .processing }).length = _
        rw [List.length_map, hrowslen]
      · intro h0
        exfalso
        have hL0 : sortByCreated (st.filter (eligibleB now)) = [] := by
          rw [← List.length_eq_zero, hLlen, h0]
        have hrowsE : ((sortByCreated (st.filter (eligibleB now))).take
            b.toNat).isEmpty = true := by
          rw [hL0, List.take_nil]
          rfl
        exact he hrowsE
      · rw [hd]
        show List.Sorted createdLe
          (((sortByCreated (st.filter (eligibleB now))).take b.toNat).map
            fun r => { r with status := .processing })
        apply List.pairwise_map.mpr
        exact hsortrows.imp (fun {a c} h => h)
      · rw [hd]
        intro x hx
        have hx' : x ∈ ((sortByCreated (st.filter (eligibleB now))).take
            b.toNat).map (fun r => { r with status := .processing }) := hx
        obtain ⟨r0, hr0, rfl⟩ := List.mem_map.mp hx'
        exact ⟨rfl, r0, (mem_take_sort_filter hr0).1,
          (mem_take_sort_filter hr0).2, rfl⟩
      · rw [hd]
        show (st.map fun r =>
            if (((sortByCreated (st.filter (eligibleB now))).take b.toNat).map
                 (·.id)).contains r.id
            then { r with status := .processing } else r).length = st.length
        rw [List.length_map]
      · intro i r hget
        have hup : ((dequeue now b st).2)[i]? =
            some (if (((sortByCreated (st.filter (eligibleB now))).take
                  b.toNat).map (·.id)).contains r.id
              then { r with status := .processing } else r) := by
          rw [hd]
          exact getElem?_map_ite hget _ _
        constructor
        · intro hmem
          rw [hretids] at hmem
          have hc : ((((sortByCreated (st.filter (eligibleB now))).take
              b.toNat).map (·.id)).contains r.id) = true :=
            List.elem_iff.mpr hmem
          rw [hup, if_pos hc]
        · intro hmem
          have hc : ¬(((((sortByCreated (st.filter (eligibleB now))).take
              b.toNat).map (·.id)).contains r.id) = true) :=
            fun hcc => hmem (by rw [hretids]; exact List.elem_iff.mp hcc)
          rw [hup, if_neg hc]
      · intro r0 hr0st hel
        have hr0L : r0 ∈ sortByCreated (st.filter (eligibleB now)) :=
          hLperm.mem_iff.mpr (List.mem_filter.mpr ⟨hr0st, hel⟩)
        have hsplit : sortByCreated (st.filter (eligibleB now)) =
            (sortByCreated (st.filter (eligibleB now))).take b.toNat ++
              (sortByCreated (st.filter (eligibleB now))).drop b.toNat :=
          (List.take_append_drop _ _).symm
        rw [hsplit] at hr0L
        rcases List.mem_append.mp hr0L with hin | hin
        · left
          rw [hd]
          exact ⟨_, List.mem_map_of_mem _ hin, rfl⟩
        · right
          intro x hx
          rw [hd] at hx
          have hx' : x ∈ ((sortByCreated (st.filter (eligibleB now))).take
              b.toNat).map (fun r => { r with status := .processing }) := hx
          obtain ⟨r1, hr1, rfl⟩ := List.mem_map.mp hx'
          have hp : List.Pairwise createdLe
              ((sortByCreated (st.filter (eligibleB now))).take b.toNat ++
                (sortByCreated (st.filter (eligibleB now))).drop b.toNat) := by
            rw [← hsplit]
            exact hsortL
          exact (List.pairwise_append.mp hp).2.2 r1 hr1 r0 hin

/-- Witness for C2: a two-row queue with one pending and one retry-ready
failed row, batch size 1: the older failed row is returned as processing, the
pending row is untouched. -/
theorem C2_dequeue_selects_eligible_fifo_witness :
    (dequeue 100 1 [wRow, wFailedRow]).1.length =
      min (Int.toNat 1) ([wRow, wFailedRow].countP (eligibleB 100)) ∧
    ((dequeue 100 1 [wRow, wFailedRow]).2)[0]? = some wRow ∧
    ((dequeue 100 1 [wRow, wFailedRow]).2)[1]? =
      some { wFailedRow with status := .processing } := by
  have h := C2_dequeue_selects_eligible_fifo 100 1 [wRow, wFailedRow]
  refine ⟨h.2.1 (by decide), ?_, ?_⟩
  · exact (h.2.2.2.2.2.2.1 0 wRow rfl).2 (by decide)
  · exact (h.2.2.2.2.2.2.1 1 wFailedRow rfl).1 (by decide)
